import Mathlib

/-!
Verification development for the maos repository.

Part I embeds `docs/architecture/research/hook-security-implementation-example.py`
(the `SecurityValidator` class, the predefined policies and the `main` hook
entry point) as executable Lean definitions.  Python's `re.search`/`re.match`
on the hard-coded pattern strings is embedded by a small regular-expression
engine (Brzozowski derivatives) over `List Char`; `Path.resolve()` and the
ambient working directory are passed in explicitly as parameters, with
resolution failure represented by `Except`.

Part II models the core described by the spec (agent-lifecycle state machine
and file-lock manager), whose implementation is not under `src/`; every such
definition carries a doc comment starting with `Modelled from the spec:`.
-/

namespace PySec

/-- Python whitespace characters, the character class of `\s` and the
separators used by `str.split()` (space, tab, newline, carriage return,
vertical tab, form feed). -/
def pyWsChars : List Char := [' ', '\t', '\n', '\r', '\x0b', '\x0c']

/-- Whether a character is Python whitespace. -/
def pyIsSpace (c : Char) : Bool := pyWsChars.contains c

/-- Lowercasing of a string (Python `str.lower()` on ASCII), used to embed
`re.IGNORECASE` matching. -/
def lcStr (s : String) : String := String.mk (s.data.map Char.toLower)

/-- Embeds Python's `needle in hay` substring test. -/
def strHas (needle hay : String) : Bool := decide (needle.data <:+: hay.data)

/-- Embeds Python's `s.startswith(w)`. -/
def pyStartsWith (s w : String) : Bool := decide (w.data <+: s.data)

/-- Embeds Python's `s.endswith(w)` (used for `$`-anchored literal regexes). -/
def pyEndsWith (s w : String) : Bool := decide (w.data <:+ s.data)

/-- Regular expressions over characters: the fragment needed by the
hard-coded patterns of the source file (`emp` matches nothing, `eps` the
empty string, `anyc` is `.` (any character except newline), `cls` a
character class, plus concatenation, alternation and Kleene star). -/
inductive Rx where
  | emp : Rx
  | eps : Rx
  | ch (c : Char) : Rx
  | anyc : Rx
  | cls (cs : List Char) : Rx
  | seq (a b : Rx) : Rx
  | alt (a b : Rx) : Rx
  | star (a : Rx) : Rx
deriving DecidableEq

/-- Whether a regex accepts the empty string. -/
def nullable : Rx → Bool
  | .emp => false
  | .eps => true
  | .ch _ => false
  | .anyc => false
  | .cls _ => false
  | .seq a b => nullable a && nullable b
  | .alt a b => nullable a || nullable b
  | .star _ => true

/-- Smart concatenation constructor, keeping derivative terms small. -/
def mkSeq : Rx → Rx → Rx
  | .emp, _ => .emp
  | _, .emp => .emp
  | .eps, b => b
  | a, .eps => a
  | a, b => .seq a b

/-- Smart alternation constructor, keeping derivative terms small. -/
def mkAlt : Rx → Rx → Rx
  | .emp, b => b
  | a, .emp => a
  | a, b => .alt a b

/-- Brzozowski derivative of a regex by one character. -/
def rderiv : Rx → Char → Rx
  | .emp, _ => .emp
  | .eps, _ => .emp
  | .ch d, c => if c = d then .eps else .emp
  | .anyc, c => if c = '\n' then .emp else .eps
  | .cls cs, c => if cs.contains c then .eps else .emp
  | .seq a b, c =>
      if nullable a then mkAlt (mkSeq (rderiv a c) b) (rderiv b c)
      else mkSeq (rderiv a c) b
  | .alt a b, c => mkAlt (rderiv a c) (rderiv b c)
  | .star a, c => mkSeq (rderiv a c) (.star a)

/-- Embeds Python's `re.match` (as a boolean): does some prefix of the text
match the regex? -/
def matchPre (r : Rx) : List Char → Bool
  | [] => nullable r
  | c :: cs => nullable r || matchPre (rderiv r c) cs

/-- Embeds Python's `re.search` (as a boolean): does the regex match at some
position of the text? -/
def rsearchL (r : Rx) : List Char → Bool
  | [] => nullable r
  | c :: cs => matchPre r (c :: cs) || rsearchL r cs

/-- Whether a character is a regex word character (`\w`), for `\b`. -/
def isWordChar (c : Char) : Bool := c.isAlphanum || c = '_'

/-- Search restricted to positions preceded by a non-word character or the
start of the string: embeds `re.search` for a pattern of the form
`\b<r>` where `<r>` starts with a word character. -/
def rsearchWBgo (r : Rx) (prevOk : Bool) : List Char → Bool
  | [] => prevOk && nullable r
  | c :: cs => (prevOk && matchPre r (c :: cs)) || rsearchWBgo r (!isWordChar c) cs

/-- Word-boundary search entry point (the start of the string is a boundary). -/
def rsearchWB (r : Rx) (s : List Char) : Bool := rsearchWBgo r true s

/-- The regex matching exactly a literal string. -/
def strRx (s : String) : Rx := s.data.foldr (fun c acc => .seq (.ch c) acc) .eps

/-- Concatenation of a list of regexes. -/
def rxCat (l : List Rx) : Rx := l.foldr .seq .eps

/-- The character class `\s`. -/
def wsCls : Rx := .cls pyWsChars

/-- The regex `\s+`. -/
def wsPlus : Rx := .seq wsCls (.star wsCls)

/-- Case-insensitive search, embedding `re.search(p, s, re.IGNORECASE)` for a
pattern whose literals are lowercase. -/
def rsearchIC (r : Rx) (s : String) : Bool := rsearchL r (lcStr s).data

/-- Security capabilities granted to agents (`class Capability(Enum)`). -/
inductive Capability where
  | READ_WORKSPACE | WRITE_WORKSPACE | READ_SYSTEM
  | EXECUTE_SAFE | EXECUTE_ANY
  | NETWORK_LOCAL | NETWORK_EXTERNAL
  | MODIFY_SETTINGS | ACCESS_SECRETS
deriving DecidableEq

/-- Security policy configuration (`@dataclass SecurityPolicy`).  Blocked
content patterns are carried in compiled (regex) form together with their
reason string; `rate_limit = None` and `rate_limit = {}` behave identically
in the source (both falsy), so the dictionary is embedded as an association
list with `[]` for the falsy case. -/
structure SecurityPolicy where
  name : String
  capabilities : List Capability
  path_whitelist : List String
  command_whitelist : List String
  blocked_patterns : List (Rx × String)
  max_file_size : Nat := 10 * 1024 * 1024
  rate_limit : List (String × Int) := []

/-- The tool-input dictionary, restricted to the keys the validators read
(`params.get(key, "")` is embedded as `Option.getD`). -/
structure ToolInput where
  file_path : Option String := none
  content : Option String := none
  command : Option String := none
  url : Option String := none
  query : Option String := none
deriving DecidableEq

/-- Embeds `SecurityValidator._is_safe_path`.  `resolve` stands for
`Path(path).resolve()` (its exceptions are `Except.error`, caught by the
source's `try`/`except` which returns `False`), and `cwd` for `Path.cwd()`. -/
def is_safe_path (p : SecurityPolicy) (cwd : String)
    (resolve : String → Except Unit String) (path : String)
    (require_workspace : Bool) : Bool :=
  match resolve path with
  | .error _ => false
  | .ok abs_path =>
    if strHas ".." abs_path then false
    else if require_workspace && !pyStartsWith abs_path cwd then false
    else if p.path_whitelist.any (fun w => pyStartsWith abs_path w) then true
    else !require_workspace

/-- The sensitive-file patterns of `_validate_write`
(`\.env$  \.ssh/  \.aws/  \.git/config  \.gpg$  \.key$  \.pem$  id_rsa`,
matched case-sensitively); each is a literal, anchored at the end for the
`$`-suffixed ones. -/
def sensitive_write_match (file_path : String) : Bool :=
  pyEndsWith file_path ".env" || strHas ".ssh/" file_path ||
  strHas ".aws/" file_path || strHas ".git/config" file_path ||
  pyEndsWith file_path ".gpg" || pyEndsWith file_path ".key" ||
  pyEndsWith file_path ".pem" || strHas "id_rsa" file_path

/-- Embeds `SecurityValidator._validate_write`. -/
def validate_write (p : SecurityPolicy) (cwd : String)
    (resolve : String → Except Unit String) (params : ToolInput) :
    Bool × Option String :=
  if Capability.WRITE_WORKSPACE ∈ p.capabilities then
    let file_path := params.file_path.getD ""
    let content := params.content.getD ""
    if !is_safe_path p cwd resolve file_path true then
      (false, some ("Path outside workspace: " ++ file_path))
    else if p.max_file_size < content.utf8ByteSize then
      (false, some ("File too large (max " ++ toString p.max_file_size ++ " bytes)"))
    else
      match p.blocked_patterns.find? (fun pr => rsearchIC pr.1 content) with
      | some pr => (false, some ("Blocked content pattern: " ++ pr.2))
      | none =>
        if sensitive_write_match file_path &&
            !(Capability.ACCESS_SECRETS ∈ p.capabilities : Bool) then
          (false, some ("Cannot write to sensitive file: " ++ file_path))
        else (true, none)
  else (false, some "Write capability not granted")

/-- Embeds `SecurityValidator._validate_edit`: `return self._validate_write(params)`. -/
def validate_edit (p : SecurityPolicy) (cwd : String)
    (resolve : String → Except Unit String) (params : ToolInput) :
    Bool × Option String :=
  validate_write p cwd resolve params

/-- Embeds `SecurityValidator._is_sensitive_file` (case-insensitive search of
the listed literal patterns, `$`-anchored ones as suffix tests). -/
def is_sensitive_file (path : String) : Bool :=
  let p := lcStr path
  strHas ".env" p || strHas ".ssh/" p || strHas ".aws/" p ||
  strHas ".git/config" p || pyEndsWith p ".gpg" || pyEndsWith p ".key" ||
  pyEndsWith p ".pem" || strHas "id_rsa" p || strHas "credentials" p ||
  strHas "secrets" p || strHas "password" p || strHas "token" p

/-- Embeds `SecurityValidator._validate_read`. -/
def validate_read (p : SecurityPolicy) (cwd : String)
    (resolve : String → Except Unit String) (params : ToolInput) :
    Bool × Option String :=
  let file_path := params.file_path.getD ""
  if !(Capability.READ_SYSTEM ∈ p.capabilities : Bool) &&
      !is_safe_path p cwd resolve file_path true then
    (false, some ("Cannot read outside workspace: " ++ file_path))
  else if is_sensitive_file file_path &&
      !(Capability.ACCESS_SECRETS ∈ p.capabilities : Bool) then
    (false, some ("Cannot read sensitive file: " ++ file_path))
  else (true, none)

/-- Whitespace tokenisation, embedding Python's `command.split()`. -/
def tokens : List Char → List (List Char)
  | [] => []
  | c :: cs =>
    if pyIsSpace c then tokens cs
    else (c :: cs.takeWhile (fun d => !pyIsSpace d)) ::
      tokens (cs.dropWhile (fun d => !pyIsSpace d))
termination_by l => l.length
decreasing_by
  · simp only [List.length_cons]; omega
  · have h := (List.dropWhile_sublist (fun d => !pyIsSpace d) (l := cs)).length_le
    simp only [List.length_cons]; omega

/-- Embeds `command.split()[0] if command else ""`: on a non-empty string
made only of whitespace, `split()` is empty and the indexing raises
`IndexError`, represented by `Except.error`. -/
def base_command_of (command : String) : Except Unit String :=
  if command.data.isEmpty then .ok ""
  else
    match tokens command.data with
    | [] => .error ()
    | t :: _ => .ok (String.mk t)

/-- Translation of a whitelist entry after `allowed.replace('*', '.*')` into
the regex fragment: `*` becomes `.*`, `.` is the any-character regex, every
other character is a literal. -/
def globRx (s : String) : Rx :=
  s.data.foldr
    (fun c acc =>
      if c = '*' then .seq (.star .anyc) acc
      else if c = '.' then .seq .anyc acc
      else .seq (.ch c) acc)
    .eps

/-- Embeds `SecurityValidator._is_safe_command` (may raise via
`command.split()[0]`). -/
def is_safe_command (p : SecurityPolicy) (command : String) : Except Unit Bool :=
  match base_command_of command with
  | .error e => .error e
  | .ok base =>
    if base ∈ p.command_whitelist then .ok true
    else .ok (p.command_whitelist.any
        (fun allowed => allowed.data.contains '*' && matchPre (globRx allowed) base.data))

/-- Regex for `\brm\s+-rf\s+/` with the leading `\b` handled by
word-boundary search. -/
def rx_rm : Rx := rxCat [strRx "rm", wsPlus, strRx "-rf", wsPlus, strRx "/"]

/-- Regex for `curl.*\|\s*sh`. -/
def rx_curl : Rx := rxCat [strRx "curl", .star .anyc, strRx "|", .star wsCls, strRx "sh"]

/-- Regex for `wget.*\|\s*bash`. -/
def rx_wget : Rx := rxCat [strRx "wget", .star .anyc, strRx "|", .star wsCls, strRx "bash"]

/-- Regex for `eval\s*\(`. -/
def rx_evalfn : Rx := rxCat [strRx "eval", .star wsCls, strRx "("]

/-- Regex for `sudo\s+`. -/
def rx_sudo : Rx := rxCat [strRx "sudo", wsPlus]

/-- Regex for `chmod\s+777`. -/
def rx_chmod : Rx := rxCat [strRx "chmod", wsPlus, strRx "777"]

/-- Regex for `mkfs\.`. -/
def rx_mkfs : Rx := strRx "mkfs."

/-- Regex for `dd\s+if=/dev/zero`. -/
def rx_dd : Rx := rxCat [strRx "dd", wsPlus, strRx "if=/dev/zero"]

/-- Regex for the fork-bomb pattern: as a Python regex it is a top-level
alternation whose first branch is colon, empty group, brace, space, colon
and whose second branch is the literal six characters colon, ampersand,
space, brace, semicolon, colon. -/
def rx_fork : Rx := .alt (strRx ":\x7b :") (strRx ":& \x7d;:")

/-- The hard-coded `dangerous_patterns` list of `_validate_bash`, in source
order: each entry is the embedded matcher (applied to the lowercased
command, embedding `re.IGNORECASE`) and the reason string. -/
def dangerous_patterns : List ((List Char → Bool) × String) :=
  [ (fun s => rsearchWB rx_rm s, "Dangerous recursive deletion"),
    (fun s => rsearchL rx_curl s, "Remote code execution attempt"),
    (fun s => rsearchL rx_wget s, "Remote code execution attempt"),
    (fun s => rsearchL rx_evalfn s, "Unsafe code evaluation"),
    (fun s => rsearchL rx_sudo s, "Privilege escalation attempt"),
    (fun s => rsearchL rx_chmod s, "Unsafe permission change"),
    (fun s => rsearchL rx_mkfs s, "Filesystem formatting attempt"),
    (fun s => rsearchL rx_dd s, "Disk wiping attempt"),
    (fun s => rsearchL rx_fork s, "Fork bomb detected") ]

/-- The reason of the first dangerous pattern matching the command, if any. -/
def firstDangerous (command : String) : Option String :=
  (dangerous_patterns.find? (fun pr => pr.1 (lcStr command).data)).map (·.2)

/-- The dangerous-pattern block at the end of `_validate_bash`. -/
def bashDangerCheck (command : String) : Bool × Option String :=
  match firstDangerous command with
  | some reason => (false, some ("Blocked command: " ++ reason))
  | none => (true, none)

/-- Embeds `SecurityValidator._validate_bash`: capability checks and
whitelist first, then the dangerous-pattern block; the whitelist check can
raise (via `split()[0]`), hence `Except`. -/
def validate_bash (p : SecurityPolicy) (params : ToolInput) :
    Except Unit (Bool × Option String) :=
  let command := params.command.getD ""
  if Capability.EXECUTE_ANY ∈ p.capabilities then
    .ok (bashDangerCheck command)
  else if Capability.EXECUTE_SAFE ∈ p.capabilities then
    match is_safe_command p command with
    | .error e => .error e
    | .ok safe =>
      if safe then .ok (bashDangerCheck command)
      else .ok (false, some ("Command not in whitelist: " ++ command))
  else .ok (false, some "No execution capability granted")

/-- Regex for `172\.(1[6-9]|2[0-9]|3[01])\.` of `_validate_web`. -/
def rx_172 : Rx :=
  rxCat [strRx "172.",
    .alt (.seq (.ch '1') (.cls ['6', '7', '8', '9']))
      (.alt (.seq (.ch '2') (.cls ['0', '1', '2', '3', '4', '5', '6', '7', '8', '9']))
        (.seq (.ch '3') (.cls ['0', '1']))),
    strRx "."]

/-- The `internal_patterns` disjunction of `_validate_web` on the lowercased
URL (all rejections in the loop produce the same message, so the
first-match order is irrelevant). -/
def matches_internal (url_lc : String) : Bool :=
  strHas "localhost" url_lc || strHas "127.0.0.1" url_lc ||
  strHas "0.0.0.0" url_lc || strHas "192.168." url_lc ||
  strHas "10." url_lc || rsearchL rx_172 url_lc.data ||
  pyEndsWith url_lc ".local" || pyEndsWith url_lc ".internal"

/-- Embeds `SecurityValidator._validate_web`. -/
def validate_web (p : SecurityPolicy) (params : ToolInput) : Bool × Option String :=
  if Capability.NETWORK_EXTERNAL ∈ p.capabilities then
    let url := params.url.getD (params.query.getD "")
    if matches_internal (lcStr url) &&
        !(Capability.NETWORK_LOCAL ∈ p.capabilities : Bool) then
      (false, some "Local network access not granted")
    else (true, none)
  else (false, some "External network access not granted")

/-- Mutable validator state: `operation_history` and `blocked_operations`
entries carry (timestamp, tool, input) resp. (timestamp, tool, reason, input). -/
structure VState where
  operation_history : List (Int × String × ToolInput) := []
  blocked_operations : List (Int × String × Option String × ToolInput) := []

/-- Embeds `SecurityValidator._check_rate_limit` (`time.time()` is the `now`
parameter; a missing entry means `float('inf')`, never exceeded). -/
def check_rate_limit (p : SecurityPolicy)
    (history : List (Int × String × ToolInput)) (tool_name : String)
    (now : Int) : Bool :=
  if p.rate_limit.isEmpty then false
  else
    match List.lookup tool_name p.rate_limit with
    | none => false
    | some limit =>
      limit ≤ ((history.filter
        (fun h => h.2.1 == tool_name && decide (now - h.1 < 60))).length : Int)

/-- Embeds `SecurityValidator.validate_pre_tool_use`: tool-specific
validation (recording blocked operations), then rate limiting, then the
operation record. -/
def validate_pre_tool_use (p : SecurityPolicy) (cwd : String)
    (resolve : String → Except Unit String) (st : VState)
    (tool_name : String) (tool_input : ToolInput) (now : Int) :
    Except Unit ((Bool × Option String) × VState) :=
  let vr : Option (Except Unit (Bool × Option String)) :=
    if tool_name = "Write" then some (.ok (validate_write p cwd resolve tool_input))
    else if tool_name = "Edit" then some (.ok (validate_edit p cwd resolve tool_input))
    else if tool_name = "Read" then some (.ok (validate_read p cwd resolve tool_input))
    else if tool_name = "Bash" then some (validate_bash p tool_input)
    else if tool_name = "WebSearch" || tool_name = "WebFetch" then
      some (.ok (validate_web p tool_input))
    else none
  match vr with
  | some (.error e) => .error e
  | some (.ok (false, reason)) =>
    .ok ((false, reason),
      { st with blocked_operations :=
          st.blocked_operations ++ [(now, tool_name, reason, tool_input)] })
  | _ =>
    if check_rate_limit p st.operation_history tool_name now then
      .ok ((false, some ("Rate limit exceeded for " ++ tool_name)), st)
    else
      .ok ((true, none),
        { st with operation_history :=
            st.operation_history ++ [(now, tool_name, tool_input)] })

/-- Regex for the blocked pattern `api[_-]?key` (optional class `[_-]`). -/
def rx_api_key : Rx := rxCat [strRx "api", .alt (.cls ['_', '-']) .eps, strRx "key"]

/-- Regex for the blocked pattern `password\s*=`. -/
def rx_password_eq : Rx := rxCat [strRx "password", .star wsCls, strRx "="]

/-- Regex for the blocked pattern `BEGIN.*PRIVATE KEY` (matched with
`re.IGNORECASE`, so its literals are stored lowercase). -/
def rx_private_key : Rx := rxCat [strRx "begin", .star .anyc, strRx "private key"]

/-- The `strict` entry of `SECURITY_POLICIES` (`os.getcwd()` at import time
is the `cwd` parameter). -/
def strict_policy (cwd : String) : SecurityPolicy :=
  { name := "strict",
    capabilities := [.READ_WORKSPACE, .WRITE_WORKSPACE, .EXECUTE_SAFE],
    path_whitelist := [cwd],
    command_whitelist := ["ls", "cat", "grep", "find", "echo", "pwd"],
    blocked_patterns :=
      [(rx_api_key, "API key exposure risk"),
       (rx_password_eq, "Password exposure risk"),
       (rx_private_key, "Private key exposure risk")],
    rate_limit := [("Write", 10), ("Bash", 20)] }

/-- The `standard` entry of `SECURITY_POLICIES`. -/
def standard_policy (cwd : String) : SecurityPolicy :=
  { name := "standard",
    capabilities := [.READ_WORKSPACE, .WRITE_WORKSPACE, .READ_SYSTEM,
      .EXECUTE_SAFE, .NETWORK_LOCAL],
    path_whitelist := [cwd, "/tmp", "/var/tmp"],
    command_whitelist := ["ls", "cat", "grep", "find", "echo", "pwd", "git",
      "npm", "pip", "python*"],
    blocked_patterns :=
      [(rx_api_key, "API key exposure risk"),
       (rx_private_key, "Private key exposure risk")],
    rate_limit := [("Write", 50), ("Bash", 100)] }

/-- The `permissive` entry of `SECURITY_POLICIES`. -/
def permissive_policy : SecurityPolicy :=
  { name := "permissive",
    capabilities := [.READ_WORKSPACE, .WRITE_WORKSPACE, .READ_SYSTEM,
      .EXECUTE_ANY, .NETWORK_LOCAL, .NETWORK_EXTERNAL],
    path_whitelist := ["/"],
    command_whitelist := ["*"],
    blocked_patterns := [],
    rate_limit := [] }

/-- The `SECURITY_POLICIES` dictionary. -/
def SECURITY_POLICIES (cwd : String) : List (String × SecurityPolicy) :=
  [("strict", strict_policy cwd), ("standard", standard_policy cwd),
   ("permissive", permissive_policy)]

/-- The parsed stdin of the hook (`input_data.get(...)` with its defaults). -/
structure HookInput where
  hook_event_name : String := ""
  tool_name : String := ""
  tool_input : ToolInput := {}
  prompt : String := ""

/-- Regex for `disable.*security|bypass.*protection` of the
`UserPromptSubmit` branch. -/
def rx_override : Rx :=
  .alt (rxCat [strRx "disable", .star .anyc, strRx "security"])
    (rxCat [strRx "bypass", .star .anyc, strRx "protection"])

/-- Embeds the body of `main()` up to but excluding the outer
`try`/`except`: `stdin_data` is the result of `json.load(sys.stdin)`
(`Except.error` when parsing raises), `env_policy` the value of
`os.getenv("CLAUDE_SECURITY_POLICY")`.  The returned number is the process
exit status; every `sys.exit(0)` and the implicit fall-through return both
yield 0. -/
def hook_main_body (cwd : String) (env_policy : Option String)
    (stdin_data : Except Unit HookInput)
    (resolve : String → Except Unit String) (now : Int) : Except Unit Nat :=
  match stdin_data with
  | .error e => .error e
  | .ok input =>
    let policy_name := env_policy.getD "standard"
    let policy :=
      (List.lookup policy_name (SECURITY_POLICIES cwd)).getD (standard_policy cwd)
    if input.hook_event_name = "PreToolUse" then
      match validate_pre_tool_use policy cwd resolve {} input.tool_name
          input.tool_input now with
      | .error e => .error e
      | .ok _ => .ok 0
    else if input.hook_event_name = "PostToolUse" then .ok 0
    else if input.hook_event_name = "UserPromptSubmit" then
      if rsearchIC rx_override input.prompt then .ok 0 else .ok 0
    else .ok 0

/-- Embeds `main()` with its outer `try`/`except`: any exception is caught
and the hook exits with status 0 (fail open). -/
def hook_main (cwd : String) (env_policy : Option String)
    (stdin_data : Except Unit HookInput)
    (resolve : String → Except Unit String) (now : Int) : Nat :=
  match hook_main_body cwd env_policy stdin_data resolve now with
  | .ok code => code
  | .error _ => 0

end PySec

namespace Core

/-- Modelled from the spec: one agent record file (§3 AgentRecord).  The
state is not a field — it is the directory the record lives in. -/
structure AgentRecord where
  agent_id : String
  agent_type : String
  context : String
  registered_at : Nat
  activated_at : Option Nat := none
  completed_at : Option Nat := none
  workspace_path : Option String := none
deriving DecidableEq

/-- Modelled from the spec: the lifecycle states returned by `get_state`. -/
inductive AgentState where
  | pending | active | completed | unknown
deriving DecidableEq

/-- Modelled from the spec: a session's state tree — the three state
directories (the lists of record files they hold) and the append-only
lifecycle event log (§6), coarsely modelled as strings. -/
structure AgentsState where
  pending : List AgentRecord
  active : List AgentRecord
  completed : List AgentRecord
  events : List String
deriving DecidableEq

/-- Modelled from the spec: the empty session state tree. -/
def initAgents : AgentsState := ⟨[], [], [], []⟩

/-- Whether a state directory holds a record for the given agent id. -/
def hasId (l : List AgentRecord) (id : String) : Bool :=
  l.any (fun r => r.agent_id == id)

/-- Modelled from the spec: `get_state` — one existence check per directory,
short-circuited (§4.1). -/
def get_state (s : AgentsState) (id : String) : AgentState :=
  if hasId s.pending id then .pending
  else if hasId s.active id then .active
  else if hasId s.completed id then .completed
  else .unknown

/-- Modelled from the spec: `register_pending` — creates a pending record;
returns false without error if a record with that id already exists
anywhere; appends a `registered` lifecycle event (§4.1). -/
def register_pending (s : AgentsState) (id agent_type context : String)
    (now : Nat) : Bool × AgentsState :=
  if hasId s.pending id || hasId s.active id || hasId s.completed id then
    (false, s)
  else
    (true,
      { s with
        pending := ⟨id, agent_type, context, now, none, none, none⟩ :: s.pending,
        events := s.events ++ ["registered:" ++ id] })

/-- Modelled from the spec: `transition_to_active` — a single atomic move of
the record from `pending` to `active`, stamping `workspace_path` and
`activated_at`; fails if no pending record exists or an active record
already exists (the rename target is pre-validated not to exist) (§4.1). -/
def transition_to_active (s : AgentsState) (id workspace_path : String)
    (now : Nat) : Bool × AgentsState :=
  match s.pending.find? (fun r => r.agent_id == id) with
  | none => (false, s)
  | some r =>
    if hasId s.active id then (false, s)
    else
      (true,
        { s with
          pending := s.pending.filter (fun q => !(q.agent_id == id)),
          active := { r with
            activated_at := some now,
            workspace_path := some workspace_path } :: s.active,
          events := s.events ++ ["activated:" ++ id] })

/-- Modelled from the spec: `transition_to_completed` — a single atomic move
of the record from `active` to `completed`, stamping `completed_at`; fails
if not currently active (target pre-validated not to exist) (§4.1). -/
def transition_to_completed (s : AgentsState) (id : String) (now : Nat) :
    Bool × AgentsState :=
  match s.active.find? (fun r => r.agent_id == id) with
  | none => (false, s)
  | some r =>
    if hasId s.completed id then (false, s)
    else
      (true,
        { s with
          active := s.active.filter (fun q => !(q.agent_id == id)),
          completed := { r with completed_at := some now } :: s.completed,
          events := s.events ++ ["completed:" ++ id] })

/-- Modelled from the spec: `list_pending` — the parsed contents of the
pending directory (§4.1; corrupt record files, skipped by the scan, are not
represented). -/
def list_pending (s : AgentsState) : List AgentRecord := s.pending

/-- Modelled from the spec: `list_active`. -/
def list_active (s : AgentsState) : List AgentRecord := s.active

/-- Modelled from the spec: whether a pending record is older than
`max_age`, computed from the record's own recorded timestamp, not the
file's modification time (§4.1 numeric/edge policy). -/
def pendingStale (r : AgentRecord) (max_age now : Nat) : Bool :=
  decide (max_age < now - r.registered_at)

/-- Modelled from the spec: whether a completed record has outlived the
retention `max_age`, from its own recorded completion timestamp. -/
def completedStale (r : AgentRecord) (max_age now : Nat) : Bool :=
  decide (max_age < now - (r.completed_at.getD r.registered_at))

/-- Modelled from the spec: the default `max_age` of 24 hours, in seconds. -/
def MAX_AGE_DEFAULT : Nat := 24 * 60 * 60

/-- Modelled from the spec: `cleanup_stale` — removes pending records older
than `max_age` (orphaned) and completed records older than `max_age`
(retention expiry), logging an `expired` or `archived` event per removal;
returns the removal counts (§4.1). -/
def cleanup_stale (s : AgentsState) (max_age now : Nat) :
    (Nat × Nat) × AgentsState :=
  let expired := s.pending.filter (fun r => pendingStale r max_age now)
  let archived := s.completed.filter (fun r => completedStale r max_age now)
  ((expired.length, archived.length),
    { s with
      pending := s.pending.filter (fun r => !pendingStale r max_age now),
      completed := s.completed.filter (fun r => !completedStale r max_age now),
      events := s.events ++ expired.map (fun r => "expired:" ++ r.agent_id)
        ++ archived.map (fun r => "archived:" ++ r.agent_id) })

/-- Modelled from the spec: one atomic state-manager operation; since every
transition is a single atomic rename, an interleaving of concurrent
transition attempts is a sequence of these operations (§5). -/
inductive AOp where
  | reg (id agent_type context : String) (now : Nat)
  | act (id workspace_path : String) (now : Nat)
  | comp (id : String) (now : Nat)
  | clean (max_age now : Nat)

/-- Modelled from the spec: applying one atomic operation to the state tree. -/
def applyAOp (s : AgentsState) : AOp → AgentsState
  | .reg id ty ctx now => (register_pending s id ty ctx now).2
  | .act id ws now => (transition_to_active s id ws now).2
  | .comp id now => (transition_to_completed s id now).2
  | .clean ma now => (cleanup_stale s ma now).2

/-- Modelled from the spec: the state tree reached by an interleaving of
operations starting from an empty session. -/
def runAOps (ops : List AOp) : AgentsState := ops.foldl applyAOp initAgents

/-- The number of state directories holding a record for the given id. -/
def dirCount (s : AgentsState) (id : String) : Nat :=
  (if hasId s.pending id then 1 else 0) +
  (if hasId s.active id then 1 else 0) +
  (if hasId s.completed id then 1 else 0)

/-- Modelled from the spec: one lock lease (§3 Lock). -/
structure LockRec where
  owner_agent_id : String
  resource_key : String
  operation : String
  acquired_at : Nat
deriving DecidableEq

/-- Modelled from the spec: the lock directory of a session plus the
lifecycle event log. -/
structure LockState where
  locks : List LockRec
  events : List String
deriving DecidableEq

/-- Modelled from the spec: the empty lock directory. -/
def initLocks : LockState := ⟨[], []⟩

/-- Modelled from the spec: the resource key derived from a file path via a
collision-resistant hash; modelled as the identity encoding, which is
injective (the property collision resistance provides). -/
def resource_key (src : String) : String := src

/-- The lock currently recorded for a resource key, if any. -/
def findLock (s : LockState) (key : String) : Option LockRec :=
  s.locks.find? (fun l => l.resource_key == key)

/-- Modelled from the spec: staleness — the lease's age, from its own
`acquired_at`, exceeds the TTL (§3). -/
def isStale (l : LockRec) (now ttl : Nat) : Bool :=
  decide (ttl < now - l.acquired_at)

/-- Modelled from the spec: the default staleness TTL of 30 minutes, in
seconds. -/
def LOCK_TTL_DEFAULT : Nat := 30 * 60

/-- Modelled from the spec: one acquisition attempt of `acquire` — the
race-free arbitration point is the exclusive creation of the lock's on-disk
representation, which fails if it already exists; on such a failure the
existing lock's staleness is checked and a stale lock is force-reclaimed
and acquisition retried immediately (§4.2).  The bounded busy-poll loop
around this attempt only repeats it until the caller-supplied timeout, so
mutual exclusion is decided per attempt. -/
def acquire (s : LockState) (agent_id src operation : String)
    (now ttl : Nat) : Bool × LockState :=
  let key := resource_key src
  match findLock s key with
  | none =>
    (true,
      { s with
        locks := ⟨agent_id, key, operation, now⟩ :: s.locks,
        events := s.events ++ ["acquired:" ++ key] })
  | some l =>
    if isStale l now ttl then
      (true,
        { s with
          locks := ⟨agent_id, key, operation, now⟩ ::
            s.locks.filter (fun x => !(x.resource_key == key)),
          events := s.events ++ ["force_released:" ++ key, "acquired:" ++ key] })
    else (false, s)

/-- Modelled from the spec: `release` — releases a lock only if it is
currently owned by `agent_id`; true if no lock existed (idempotent) or the
release succeeded; false, leaving the lock in place, if the lock is owned
by someone else (§4.2). -/
def release (s : LockState) (agent_id src : String) : Bool × LockState :=
  let key := resource_key src
  match findLock s key with
  | none => (true, s)
  | some l =>
    if l.owner_agent_id == agent_id then
      (true,
        { s with
          locks := s.locks.filter (fun x => !(x.resource_key == key)),
          events := s.events ++ ["released:" ++ key] })
    else (false, s)

/-- Modelled from the spec: `is_locked` — true iff a live lock exists for
the resource and its owner differs from the requesting agent; an agent's
own lock never blocks itself (§4.2). -/
def is_locked (s : LockState) (src requesting_agent_id : String)
    (now ttl : Nat) : Bool :=
  match findLock s (resource_key src) with
  | none => false
  | some l => !isStale l now ttl && !(l.owner_agent_id == requesting_agent_id)

/-- Modelled from the spec: `get_lock_info`. -/
def get_lock_info (s : LockState) (src : String) : Option LockRec :=
  findLock s (resource_key src)

/-- Modelled from the spec: `release_all_for_agent` — bulk cleanup on agent
completion; releases every lock owned by the given agent and returns the
released resource keys (§4.2). -/
def release_all_for_agent (s : LockState) (agent_id : String) :
    List String × LockState :=
  let mine := s.locks.filter (fun l => l.owner_agent_id == agent_id)
  (mine.map (fun l => l.resource_key),
    { s with
      locks := s.locks.filter (fun l => !(l.owner_agent_id == agent_id)),
      events := s.events ++ mine.map (fun l => "released:" ++ l.resource_key) })

/-- Modelled from the spec: the lock manager's `cleanup_stale` —
force-releases every lock exceeding the staleness TTL, logging a
`force_released` event per removal, and returns the count (§4.2). -/
def cleanup_stale_locks (s : LockState) (now ttl : Nat) : Nat × LockState :=
  let stale := s.locks.filter (fun l => isStale l now ttl)
  (stale.length,
    { s with
      locks := s.locks.filter (fun l => !isStale l now ttl),
      events := s.events ++ stale.map (fun l => "force_released:" ++ l.resource_key) })

/-- Modelled from the spec: one atomic lock-manager operation (§5). -/
inductive LOp where
  | acq (agent_id src operation : String) (now ttl : Nat)
  | rel (agent_id src : String)
  | relAll (agent_id : String)
  | clean (now ttl : Nat)

/-- Modelled from the spec: applying one atomic lock operation. -/
def applyLOp (s : LockState) : LOp → LockState
  | .acq a src op now ttl => (acquire s a src op now ttl).2
  | .rel a src => (release s a src).2
  | .relAll a => (release_all_for_agent s a).2
  | .clean now ttl => (cleanup_stale_locks s now ttl).2

/-- Modelled from the spec: the lock state reached by an interleaving of
operations starting from an empty lock directory. -/
def runLOps (ops : List LOp) : LockState := ops.foldl applyLOp initLocks

/-- The number of lock records held for a resource key. -/
def lockCount (s : LockState) (key : String) : Nat :=
  s.locks.countP (fun l => l.resource_key == key)

end Core

namespace PySec

/-- Whether a regex can match some string made only of whitespace
characters (including the empty string); used to show that the dangerous
command patterns never fire on whitespace-only commands. -/
def wsNullable : Rx → Bool
  | .emp => false
  | .eps => true
  | .ch c => pyIsSpace c
  | .anyc => true
  | .cls cs => cs.any pyIsSpace
  | .seq a b => wsNullable a && wsNullable b
  | .alt a b => wsNullable a || wsNullable b
  | .star _ => true

/-- A resolution function for callers that already pass resolved absolute
paths: `Path(p).resolve()` is the identity on them and raises nothing. -/
def idResolve : String → Except Unit String := fun p => .ok p

/-- A policy granting only the write capability, whitelisting exactly the
workspace `/ws`, with no blocked content patterns: the minimal policy under
which `_validate_write` reaches the sensitive-file check. -/
def cex1_policy : SecurityPolicy :=
  { name := "cex",
    capabilities := [.WRITE_WORKSPACE],
    path_whitelist := ["/ws"],
    command_whitelist := [],
    blocked_patterns := [] }

end PySec

section Helpers

variable {α : Type}

/-- Filtering out everything satisfying a predicate leaves nothing for
`find?` with that predicate to find. -/
theorem find?_filter_not (p : α → Bool) (l : List α) :
    (l.filter (fun a => !p a)).find? p = none := by
  apply List.find?_eq_none.mpr
  intro x hx
  have := (List.mem_filter.mp hx).2
  simp only [Bool.not_eq_true'] at this
  simp [this]

/-- Filtering out everything satisfying a predicate makes `any` with that
predicate false. -/
theorem any_filter_not (p : α → Bool) (l : List α) :
    (l.filter (fun a => !p a)).any p = false := by
  rw [Bool.eq_false_iff]
  intro h
  obtain ⟨x, hx, hpx⟩ := List.any_eq_true.mp h
  have := (List.mem_filter.mp hx).2
  simp [hpx] at this

/-- `any` over a filtered list implies `any` over the original list. -/
theorem any_filter_imp {p q : α → Bool} {l : List α}
    (h : (l.filter q).any p = true) : l.any p = true := by
  obtain ⟨x, hx, hpx⟩ := List.any_eq_true.mp h
  exact List.any_eq_true.mpr ⟨x, (List.mem_filter.mp hx).1, hpx⟩

/-- Counting over a filtered list never exceeds counting over the list. -/
theorem countP_filter_le (p q : α → Bool) (l : List α) :
    (l.filter q).countP p ≤ l.countP p :=
  (List.filter_sublist l).countP_le p

/-- If `find?` finds nothing, the count of matches is zero. -/
theorem countP_eq_zero_of_find?_none {p : α → Bool} {l : List α}
    (h : l.find? p = none) : l.countP p = 0 := by
  apply List.countP_eq_zero.mpr
  intro x hx
  exact fun hpx => by simpa [hpx] using List.find?_eq_none.mp h x hx

/-- Filtering out everything satisfying a predicate leaves a zero count. -/
theorem countP_filter_not (p : α → Bool) (l : List α) :
    (l.filter (fun a => !p a)).countP p = 0 := by
  apply List.countP_eq_zero.mpr
  intro x hx
  have := (List.mem_filter.mp hx).2
  simp only [Bool.not_eq_true'] at this
  simp [this]

/-- A boolean implication transfers to the 0/1 indicator. -/
theorem cond_le_cond {a b : Bool} (h : a = true → b = true) :
    (if a then 1 else 0) ≤ (if b then 1 else 0) := by
  cases a with
  | false => simp
  | true => simp [h rfl]

end Helpers

namespace PySec

/-- Claim C8: `_validate_edit` returns exactly the result of
`_validate_write` on every parameter dictionary — Edit operations are
validated under precisely the same capability, path, size,
blocked-pattern, and sensitive-file rules as Write operations. -/
theorem edit_equals_write (p : SecurityPolicy) (cwd : String)
    (resolve : String → Except Unit String) (params : ToolInput) :
    validate_edit p cwd resolve params = validate_write p cwd resolve params :=
  rfl

/-- Claim C9: `_is_safe_path` fails closed — whenever path resolution
raises (the `Except.error` case of `resolve`), the exception is caught and
the function returns `false`, never treating the path as allowed.  (It is
total by construction: it is a Lean function into `Bool`.) -/
theorem is_safe_path_fail_closed (p : SecurityPolicy) (cwd : String)
    (resolve : String → Except Unit String) (path : String)
    (require_workspace : Bool) (h : resolve path = .error ()) :
    is_safe_path p cwd resolve path require_workspace = false := by
  unfold is_safe_path
  rw [h]

/-- Witness for C9: a resolution function that always raises makes
`_is_safe_path` return `false` on a concrete input. -/
theorem is_safe_path_fail_closed_witness :
    is_safe_path permissive_policy "/" (fun _ => .error ()) "/etc/passwd" true
      = false :=
  is_safe_path_fail_closed permissive_policy "/" (fun _ => .error ())
    "/etc/passwd" true rfl

/-- Counterexample to claim C1 as stated: under a policy granting the write
capability and whitelisting the workspace `/ws`, the file path
`/ws/id_rsa` resolves to itself, lies under the workspace (`startswith`
holds and `_is_safe_path` accepts it), yet `_validate_write` rejects the
operation via the sensitive-file rule — so an operation whose resolved
absolute path lies under the workspace is not always allowed. -/
theorem workspace_confinement_counterexample :
    idResolve "/ws/id_rsa" = .ok "/ws/id_rsa" ∧
    pyStartsWith "/ws/id_rsa" "/ws" = true ∧
    is_safe_path cex1_policy "/ws" idResolve "/ws/id_rsa" true = true ∧
    validate_write cex1_policy "/ws" idResolve
        { file_path := some "/ws/id_rsa", content := some "" } =
      (false, some "Cannot write to sensitive file: /ws/id_rsa") := by
  refine ⟨rfl, by decide, by decide, by decide⟩

/-- Claim C1 (amended): for `_validate_write` (and hence `_validate_edit`),
a file operation whose resolved absolute path does not start with the
workspace directory is always rejected — with a message naming the
attempted path whenever the capability check has passed — and one whose
resolved path lies under the workspace is allowed provided the other write
rules also pass: the write capability is granted, the resolved path
contains no `..` and starts with a whitelisted root, the content is within
the size limit and matches no blocked pattern, and the path is not a
sensitive file (or secrets access is granted). -/
theorem workspace_confinement (p : SecurityPolicy) (cwd : String)
    (resolve : String → Except Unit String) (params : ToolInput)
    (abs_path : String)
    (hres : resolve (params.file_path.getD "") = .ok abs_path) :
    (pyStartsWith abs_path cwd = false →
      (validate_write p cwd resolve params).1 = false) ∧
    (Capability.WRITE_WORKSPACE ∈ p.capabilities →
      pyStartsWith abs_path cwd = false →
      validate_write p cwd resolve params =
        (false, some ("Path outside workspace: " ++ params.file_path.getD ""))) ∧
    (Capability.WRITE_WORKSPACE ∈ p.capabilities →
      strHas ".." abs_path = false →
      pyStartsWith abs_path cwd = true →
      p.path_whitelist.any (fun w => pyStartsWith abs_path w) = true →
      (params.content.getD "").utf8ByteSize ≤ p.max_file_size →
      (∀ pr ∈ p.blocked_patterns,
        rsearchIC pr.1 (params.content.getD "") = false) →
      (sensitive_write_match (params.file_path.getD "") = false ∨
        Capability.ACCESS_SECRETS ∈ p.capabilities) →
      validate_write p cwd resolve params = (true, none)) := by
  have hsafe : ∀ rw : Bool, is_safe_path p cwd resolve (params.file_path.getD "") rw =
      (if strHas ".." abs_path then false
       else if rw && !pyStartsWith abs_path cwd then false
       else if p.path_whitelist.any (fun w => pyStartsWith abs_path w) then true
       else !rw) := by
    intro rw
    unfold is_safe_path
    rw [hres]
  refine ⟨?_, ?_, ?_⟩
  · intro hout
    unfold validate_write
    by_cases hcap : Capability.WRITE_WORKSPACE ∈ p.capabilities
    · simp only [if_pos hcap, hsafe, hout]
      by_cases hdots : strHas ".." abs_path <;> simp [hdots]
    · simp [hcap]
  · intro hcap hout
    unfold validate_write
    simp only [if_pos hcap, hsafe, hout]
    by_cases hdots : strHas ".." abs_path <;> simp [hdots]
  · intro hcap hdots hin hwl hsize hblocked hsens
    have hnlt : ¬ (p.max_file_size < (params.content.getD "").utf8ByteSize) :=
      Nat.not_lt.mpr hsize
    have hfind : p.blocked_patterns.find?
        (fun pr => rsearchIC pr.1 (params.content.getD "")) = none :=
      List.find?_eq_none.mpr (fun pr hpr => by simp [hblocked pr hpr])
    unfold validate_write
    simp only [if_pos hcap, hsafe, hdots, hin, hwl]
    rcases hsens with hs | hs
    · simp [hnlt, hfind, hs]
    · simp [hnlt, hfind, hs]

/-- Witness for C1 (amended): a write to `/ws/notes.txt` under workspace
`/ws` with innocuous content is allowed under the same concrete policy
used by the counterexample. -/
theorem workspace_confinement_witness :
    validate_write cex1_policy "/ws" idResolve
        { file_path := some "/ws/notes.txt", content := some "hello" } =
      (true, none) :=
  (workspace_confinement cex1_policy "/ws" idResolve
      { file_path := some "/ws/notes.txt", content := some "hello" }
      "/ws/notes.txt" rfl).2.2 (by decide) (by decide) (by decide) (by decide)
    (by decide) (by decide) (Or.inl (by decide))

end PySec

namespace PySec

/-- Every branch of the hook body yields exit status 0 or raises. -/
theorem hook_main_body_cases (cwd : String) (env_policy : Option String)
    (stdin_data : Except Unit HookInput)
    (resolve : String → Except Unit String) (now : Int) :
    hook_main_body cwd env_policy stdin_data resolve now = .ok 0 ∨
    hook_main_body cwd env_policy stdin_data resolve now = .error () := by
  cases stdin_data with
  | error e => cases e; exact Or.inr rfl
  | ok input =>
    simp only [hook_main_body]
    by_cases h1 : input.hook_event_name = "PreToolUse"
    · simp only [h1, if_true]
      rcases hv : validate_pre_tool_use
          ((List.lookup (env_policy.getD "standard") (SECURITY_POLICIES cwd)).getD
            (standard_policy cwd)) cwd resolve {} input.tool_name
          input.tool_input now with e | r
      · cases e; exact Or.inr rfl
      · exact Or.inl rfl
    · by_cases h2 : input.hook_event_name = "PostToolUse"
      · simp [h1, h2]
      · by_cases h3 : input.hook_event_name = "UserPromptSubmit"
        · simp only [h1, h2, h3, if_false, if_true]
          by_cases h4 : rsearchIC rx_override input.prompt <;> simp [h4]
        · simp [h1, h2, h3]

/-- Claim C7: the hook's `main` entry point catches every exception and the
process always exits with status 0 (fail open), for every stdin parse
result, policy environment value, resolution function and clock value; the
modelled core operations are total Lean functions returning booleans or
enumerated outcomes, so they never raise at all. -/
theorem hook_fail_open (cwd : String) (env_policy : Option String)
    (stdin_data : Except Unit HookInput)
    (resolve : String → Except Unit String) (now : Int) :
    hook_main cwd env_policy stdin_data resolve now = 0 := by
  unfold hook_main
  rcases hook_main_body_cases cwd env_policy stdin_data resolve now with h | h <;>
    rw [h]

end PySec

namespace PySec

/-- A regex that cannot match a whitespace-only string does not accept the
empty string. -/
theorem nullable_eq_false_of_wsNullable (r : Rx)
    (h : wsNullable r = false) : nullable r = false := by
  induction r with
  | emp => rfl
  | eps => simp [wsNullable] at h
  | ch c => rfl
  | anyc => rfl
  | cls cs => rfl
  | seq a b iha ihb =>
    simp only [wsNullable, Bool.and_eq_false_iff] at h
    rcases h with h | h
    · simp [nullable, iha h]
    · simp [nullable, ihb h]
  | alt a b iha ihb =>
    simp only [wsNullable, Bool.or_eq_false_iff] at h
    simp [nullable, iha h.1, ihb h.2]
  | star a ih => simp [wsNullable] at h

/-- `wsNullable` computes through the smart concatenation constructor. -/
theorem wsNullable_mkSeq (a b : Rx) :
    wsNullable (mkSeq a b) = (wsNullable a && wsNullable b) := by
  cases a <;> cases b <;> simp [mkSeq, wsNullable]

/-- `wsNullable` computes through the smart alternation constructor. -/
theorem wsNullable_mkAlt (a b : Rx) :
    wsNullable (mkAlt a b) = (wsNullable a || wsNullable b) := by
  cases a <;> cases b <;> simp [mkAlt, wsNullable]

/-- Deriving by a whitespace character preserves the inability to match a
whitespace-only string. -/
theorem wsNullable_rderiv (r : Rx) (c : Char) (hc : pyIsSpace c = true)
    (h : wsNullable r = false) : wsNullable (rderiv r c) = false := by
  induction r with
  | emp => rfl
  | eps => rfl
  | ch d =>
    simp only [wsNullable] at h
    have : ¬ (c = d) := fun he => by rw [he] at hc; rw [hc] at h; cases h
    simp [rderiv, this, wsNullable]
  | anyc => simp [wsNullable] at h
  | cls cs =>
    simp only [wsNullable] at h
    have hmem : c ∉ cs := by
      intro hmem
      have hany : cs.any pyIsSpace = true := List.any_eq_true.mpr ⟨c, hmem, hc⟩
      rw [hany] at h; cases h
    simp [rderiv, hmem, wsNullable]
  | seq a b iha ihb =>
    simp only [wsNullable, Bool.and_eq_false_iff] at h
    rcases h with h | h
    · have hna : nullable a = false := nullable_eq_false_of_wsNullable a h
      simp [rderiv, hna, wsNullable_mkSeq, iha h]
    · by_cases hna : nullable a = true
      · simp [rderiv, hna, wsNullable_mkAlt, wsNullable_mkSeq, ihb h, h]
      · simp only [Bool.not_eq_true] at hna
        simp [rderiv, hna, wsNullable_mkSeq, h]
  | alt a b iha ihb =>
    simp only [wsNullable, Bool.or_eq_false_iff] at h
    simp [rderiv, wsNullable_mkAlt, iha h.1, ihb h.2]
  | star a ih => simp [wsNullable] at h

/-- A regex that cannot match a whitespace-only string matches no prefix of
a whitespace-only text. -/
theorem matchPre_ws (r : Rx) (l : List Char) (h : wsNullable r = false)
    (hl : ∀ c ∈ l, pyIsSpace c = true) : matchPre r l = false := by
  induction l generalizing r with
  | nil => exact nullable_eq_false_of_wsNullable r h
  | cons c cs ih =>
    have hc : pyIsSpace c = true := hl c (List.mem_cons_self c cs)
    simp only [matchPre, nullable_eq_false_of_wsNullable r h, Bool.false_or]
    exact ih (rderiv r c) (wsNullable_rderiv r c hc h)
      (fun d hd => hl d (List.mem_cons_of_mem c hd))

/-- A regex that cannot match a whitespace-only string is not found by
search in a whitespace-only text. -/
theorem rsearchL_ws (r : Rx) (l : List Char) (h : wsNullable r = false)
    (hl : ∀ c ∈ l, pyIsSpace c = true) : rsearchL r l = false := by
  induction l with
  | nil => exact nullable_eq_false_of_wsNullable r h
  | cons c cs ih =>
    simp only [rsearchL, Bool.or_eq_false_iff]
    exact ⟨matchPre_ws r (c :: cs) h hl,
      ih (fun d hd => hl d (List.mem_cons_of_mem c hd))⟩

/-- Word-boundary search likewise finds nothing in a whitespace-only text. -/
theorem rsearchWBgo_ws (r : Rx) (l : List Char) (h : wsNullable r = false)
    (hl : ∀ c ∈ l, pyIsSpace c = true) :
    ∀ prevOk : Bool, rsearchWBgo r prevOk l = false := by
  induction l with
  | nil =>
    intro prevOk
    simp [rsearchWBgo, nullable_eq_false_of_wsNullable r h]
  | cons c cs ih =>
    intro prevOk
    simp only [rsearchWBgo, Bool.or_eq_false_iff]
    refine ⟨?_, ih (fun d hd => hl d (List.mem_cons_of_mem c hd)) _⟩
    simp [matchPre_ws r (c :: cs) h hl]

end PySec

namespace PySec

/-- Lowercasing preserves Python whitespace-ness. -/
theorem pyIsSpace_toLower (c : Char) (hc : pyIsSpace c = true) :
    pyIsSpace c.toLower = true := by
  have : c ∈ pyWsChars := by
    simpa [pyIsSpace] using hc
  fin_cases this <;> decide

/-- If a command consists only of whitespace, so does its lowercasing. -/
theorem lcStr_ws (s : String) (h : ∀ c ∈ s.data, pyIsSpace c = true) :
    ∀ c ∈ (lcStr s).data, pyIsSpace c = true := by
  intro c hc
  simp only [lcStr, List.mem_map] at hc
  obtain ⟨d, hd, rfl⟩ := hc
  exact pyIsSpace_toLower d (h d hd)

/-- Tokenising a string that yields no tokens means every character is
whitespace. -/
theorem tokens_nil (l : List Char) (h : tokens l = []) :
    ∀ c ∈ l, pyIsSpace c = true := by
  induction l using tokens.induct with
  | case1 => intro c hc; cases hc
  | case2 c cs hc ih =>
    rw [tokens, if_pos hc] at h
    intro d hd
    rcases List.mem_cons.mp hd with rfl | hd
    · exact hc
    · exact ih h d hd
  | case3 c cs hc =>
    rw [tokens, if_neg hc] at h
    cases h

/-- No dangerous pattern matches a whitespace-only command. -/
theorem firstDangerous_ws (cmd : String)
    (h : ∀ c ∈ cmd.data, pyIsSpace c = true) : firstDangerous cmd = none := by
  have hlc := lcStr_ws cmd h
  have hnone : dangerous_patterns.find? (fun pr => pr.1 (lcStr cmd).data) = none := by
    apply List.find?_eq_none.mpr
    intro pr hpr
    simp only [dangerous_patterns, List.mem_cons, List.not_mem_nil, or_false] at hpr
    rcases hpr with rfl | rfl | rfl | rfl | rfl | rfl | rfl | rfl | rfl <;>
      simp only [Bool.not_eq_true]
    · exact rsearchWBgo_ws rx_rm _ (by decide) hlc true
    · exact rsearchL_ws rx_curl _ (by decide) hlc
    · exact rsearchL_ws rx_wget _ (by decide) hlc
    · exact rsearchL_ws rx_evalfn _ (by decide) hlc
    · exact rsearchL_ws rx_sudo _ (by decide) hlc
    · exact rsearchL_ws rx_chmod _ (by decide) hlc
    · exact rsearchL_ws rx_mkfs _ (by decide) hlc
    · exact rsearchL_ws rx_dd _ (by decide) hlc
    · exact rsearchL_ws rx_fork _ (by decide) hlc
  simp [firstDangerous, hnone]

/-- A command on which a dangerous pattern fires has a first token, so the
whitelist lookup cannot raise. -/
theorem base_command_of_ok_of_dangerous (cmd : String) (reason : String)
    (h : firstDangerous cmd = some reason) :
    ∃ b, base_command_of cmd = .ok b := by
  unfold base_command_of
  by_cases he : cmd.data.isEmpty
  · exact ⟨"", by simp [he]⟩
  · rcases ht : tokens cmd.data with _ | ⟨t, ts⟩
    · exact absurd h (by simp [firstDangerous_ws cmd (tokens_nil _ ht)])
    · exact ⟨String.mk t, by simp [he, ht]⟩

end PySec

namespace PySec

/-- Claim C10: for every security policy — including ones granting
`EXECUTE_ANY` with an unrestricted whitelist — `_validate_bash` rejects any
command on which one of the hard-coded dangerous patterns fires: the
result is always `(False, reason)`, and when `EXECUTE_ANY` is granted (so
the capability checks are passed) the reason is exactly the blocked-command
message of the first matching dangerous pattern — the dangerous-pattern
block is applied unconditionally after the capability checks. -/
theorem dangerous_always_blocked (p : SecurityPolicy) (params : ToolInput)
    (reason : String)
    (h : firstDangerous (params.command.getD "") = some reason) :
    (∃ r, validate_bash p params = .ok (false, r)) ∧
    (Capability.EXECUTE_ANY ∈ p.capabilities →
      validate_bash p params =
        .ok (false, some ("Blocked command: " ++ reason))) := by
  have hdanger : bashDangerCheck (params.command.getD "") =
      (false, some ("Blocked command: " ++ reason)) := by
    unfold bashDangerCheck
    rw [h]
  constructor
  · unfold validate_bash
    by_cases hany : Capability.EXECUTE_ANY ∈ p.capabilities
    · exact ⟨some ("Blocked command: " ++ reason), by simp [hany, hdanger]⟩
    · by_cases hsafe : Capability.EXECUTE_SAFE ∈ p.capabilities
      · obtain ⟨b, hb⟩ := base_command_of_ok_of_dangerous _ reason h
        obtain ⟨sb, hsb⟩ : ∃ sb, is_safe_command p (params.command.getD "") =
            .ok sb := by
          unfold is_safe_command
          rw [hb]
          by_cases hwl : b ∈ p.command_whitelist
          · exact ⟨true, by simp [hwl]⟩
          · exact ⟨p.command_whitelist.any
              (fun allowed => allowed.data.contains '*' &&
                matchPre (globRx allowed) b.data), by simp [hwl]⟩
        cases sb with
        | true =>
          exact ⟨some ("Blocked command: " ++ reason),
            by simp [hany, hsafe, hsb, hdanger]⟩
        | false =>
          exact ⟨some ("Command not in whitelist: " ++ params.command.getD ""),
            by simp [hany, hsafe, hsb]⟩
      · exact ⟨some "No execution capability granted", by simp [hany, hsafe]⟩
  · intro hany
    unfold validate_bash
    simp [hany, hdanger]

/-- Witness for C10: under the `permissive` policy (which grants
`EXECUTE_ANY` and whitelists `*`), the command `sudo ls` is rejected by
the privilege-escalation dangerous pattern. -/
theorem dangerous_always_blocked_witness :
    validate_bash permissive_policy { command := some "sudo ls" } =
      .ok (false, some "Blocked command: Privilege escalation attempt") :=
  (dangerous_always_blocked permissive_policy { command := some "sudo ls" }
    "Privilege escalation attempt" (by decide)).2 (by decide)

end PySec

namespace Core

/-- Membership check on a cons cell of a state directory. -/
theorem hasId_cons (r : AgentRecord) (l : List AgentRecord) (id : String) :
    hasId (r :: l) id = ((r.agent_id == id) || hasId l id) := by
  simp [hasId]

/-- After filtering a directory by an id, that id is gone. -/
theorem hasId_filter_self (l : List AgentRecord) (id : String) :
    hasId (l.filter (fun q => !(q.agent_id == id))) id = false := by
  simp [hasId]

/-- Membership in a filtered directory implies membership in the original. -/
theorem hasId_filter_le (l : List AgentRecord) (q : AgentRecord → Bool)
    (id : String) (h : hasId (l.filter q) id = true) : hasId l id = true :=
  any_filter_imp h

/-- A successful `find?` on a directory witnesses membership of the id. -/
theorem hasId_of_find? {l : List AgentRecord} {id : String} {r : AgentRecord}
    (h : l.find? (fun x => x.agent_id == id) = some r) :
    hasId l id = true ∧ r.agent_id = id := by
  have hr := List.find?_some h
  exact ⟨List.any_eq_true.mpr ⟨r, List.mem_of_find?_eq_some h, hr⟩,
    by simpa using hr⟩

/-- `get_state` answers `unknown` exactly when no directory has a record. -/
theorem get_state_unknown_iff (s : AgentsState) (id : String) :
    get_state s id = .unknown ↔ dirCount s id = 0 := by
  unfold get_state dirCount
  by_cases h1 : hasId s.pending id <;> by_cases h2 : hasId s.active id <;>
    by_cases h3 : hasId s.completed id <;> simp [h1, h2, h3]

/-- One atomic state-manager operation preserves the at-most-one-directory
invariant. -/
theorem applyAOp_dirCount (s : AgentsState) (op : AOp)
    (h : ∀ id, dirCount s id ≤ 1) : ∀ id, dirCount (applyAOp s op) id ≤ 1 := by
  cases op with
  | reg id0 ty ctx now =>
    cases hg : (hasId s.pending id0 || hasId s.active id0 || hasId s.completed id0) with
    | true => simpa [applyAOp, register_pending, hg] using h
    | false =>
      intro id
      simp only [Bool.or_eq_false_iff] at hg
      obtain ⟨⟨hgp, hga⟩, hgc⟩ := hg
      by_cases hid : id0 = id
      · subst hid
        simp [applyAOp, register_pending, hgp, hga, hgc, dirCount, hasId_cons]
      · have hne : (id0 == id) = false := by simp [hid]
        simp [applyAOp, register_pending, hgp, hga, hgc, dirCount, hasId_cons,
          hne]
        simpa [dirCount] using h id
  | act id0 ws now =>
    rcases hf : s.pending.find? (fun r => r.agent_id == id0) with _ | r
    · simpa [applyAOp, transition_to_active, hf] using h
    · obtain ⟨hp, hrid⟩ := hasId_of_find? hf
      cases hact : hasId s.active id0 with
      | true => simpa [applyAOp, transition_to_active, hf, hact] using h
      | false =>
        intro id
        have hcount := h id0
        simp only [dirCount, hp, hact, if_true, if_false] at hcount
        have hc : hasId s.completed id0 = false := by
          cases hcc : hasId s.completed id0 with
          | false => rfl
          | true => rw [hcc] at hcount; simp at hcount
        by_cases hid : id0 = id
        · subst hid
          simp [applyAOp, transition_to_active, hf, hact, dirCount,
            hasId_cons, hasId_filter_self, hrid, hc]
        · have hne : (id0 == id) = false := by simp [hid]
          simp only [applyAOp, transition_to_active, hf, hact, if_false,
            Bool.false_eq_true, dirCount, hasId_cons, hrid, hne,
            Bool.false_or]
          have hdc := h id
          simp only [dirCount] at hdc
          exact le_trans
            (Nat.add_le_add (Nat.add_le_add
              (cond_le_cond (fun hx => hasId_filter_le _ _ _ hx))
              (le_refl _)) (le_refl _)) hdc
  | comp id0 now =>
    rcases hf : s.active.find? (fun r => r.agent_id == id0) with _ | r
    · simpa [applyAOp, transition_to_completed, hf] using h
    · obtain ⟨ha, hrid⟩ := hasId_of_find? hf
      cases hcomp : hasId s.completed id0 with
      | true => simpa [applyAOp, transition_to_completed, hf, hcomp] using h
      | false =>
        intro id
        have hcount := h id0
        simp only [dirCount, ha, hcomp, if_true, if_false] at hcount
        have hpnone : hasId s.pending id0 = false := by
          cases hpp : hasId s.pending id0 with
          | false => rfl
          | true => rw [hpp] at hcount; simp at hcount
        by_cases hid : id0 = id
        · subst hid
          simp [applyAOp, transition_to_completed, hf, hcomp, dirCount,
            hasId_cons, hasId_filter_self, hrid, hpnone]
        · have hne : (id0 == id) = false := by simp [hid]
          simp only [applyAOp, transition_to_completed, hf, hcomp, if_false,
            Bool.false_eq_true, dirCount, hasId_cons, hrid, hne,
            Bool.false_or]
          have hdc := h id
          simp only [dirCount] at hdc
          exact le_trans
            (Nat.add_le_add (Nat.add_le_add (le_refl _)
              (cond_le_cond (fun hx => hasId_filter_le _ _ _ hx)))
              (le_refl _)) hdc
  | clean ma now =>
    intro id
    simp only [applyAOp, cleanup_stale, dirCount]
    have hdc := h id
    simp only [dirCount] at hdc
    exact le_trans
      (Nat.add_le_add (Nat.add_le_add
        (cond_le_cond (fun hx => hasId_filter_le _ _ _ hx)) (le_refl _))
        (cond_le_cond (fun hx => hasId_filter_le _ _ _ hx))) hdc

end Core

namespace Core

/-- The at-most-one-directory invariant holds in every reachable state. -/
theorem runAOps_dirCount (ops : List AOp) : ∀ id, dirCount (runAOps ops) id ≤ 1 := by
  suffices hstep : ∀ (l : List AOp) (s : AgentsState),
      (∀ id, dirCount s id ≤ 1) → ∀ id, dirCount (l.foldl applyAOp s) id ≤ 1 by
    exact hstep ops initAgents (fun id => by simp [initAgents, dirCount, hasId])
  intro l
  induction l with
  | nil => exact fun s h => h
  | cons op rest ih =>
    intro s h
    exact ih (applyAOp s op) (applyAOp_dirCount s op h)

/-- Claim C2: in every state of the session's state tree reachable by any
interleaving of atomic transition operations, each agent id has a record
in at most one of the three state directories (pending, active, completed)
— exactly one or none — and `get_state` answers with the single state
determined by that location, `unknown` exactly when no directory holds a
record.  (`get_state` returns exactly one of the four enumerated values by
construction, being a function into the four-element `AgentState` type.) -/
theorem state_exactly_one_directory (ops : List AOp) (id : String) :
    dirCount (runAOps ops) id ≤ 1 ∧
    (get_state (runAOps ops) id = .unknown ↔ dirCount (runAOps ops) id = 0) :=
  ⟨runAOps_dirCount ops id, get_state_unknown_iff (runAOps ops) id⟩

/-- Claim C4: for a freshly registered agent id (one `get_state` knows
nothing about), `register_pending` → `transition_to_active` →
`transition_to_completed` all succeed in that order, and each of the three
operations is idempotent-rejecting: repeating it on the same id returns
false — in particular `register_pending` returns false (without raising)
whenever a record for the id exists anywhere, and a second
`transition_to_active` returns false for any workspace path. -/
theorem lifecycle_round_trip (s : AgentsState) (id ty ctx ws : String)
    (n1 n2 n3 : Nat) (h : get_state s id = .unknown) :
    (register_pending s id ty ctx n1).1 = true ∧
    (∀ ty2 ctx2 m, (register_pending (register_pending s id ty ctx n1).2
        id ty2 ctx2 m).1 = false) ∧
    (transition_to_active (register_pending s id ty ctx n1).2 id ws n2).1 = true ∧
    (∀ ws2 m, (transition_to_active
        (transition_to_active (register_pending s id ty ctx n1).2 id ws n2).2
        id ws2 m).1 = false) ∧
    (transition_to_completed
        (transition_to_active (register_pending s id ty ctx n1).2 id ws n2).2
        id n3).1 = true ∧
    (∀ m, (transition_to_completed
        (transition_to_completed
          (transition_to_active (register_pending s id ty ctx n1).2 id ws n2).2
          id n3).2 id m).1 = false) ∧
    (∀ s0 : AgentsState, get_state s0 id ≠ .unknown →
      ∀ ty0 ctx0 m, (register_pending s0 id ty0 ctx0 m).1 = false) := by
  have h0 : hasId s.pending id = false ∧ hasId s.active id = false ∧
      hasId s.completed id = false := by
    unfold get_state at h
    by_cases h1 : hasId s.pending id <;> by_cases h2 : hasId s.active id <;>
      by_cases h3 : hasId s.completed id <;> simp_all
  obtain ⟨hp, ha, hc⟩ := h0
  have hreg : register_pending s id ty ctx n1 =
      (true, { s with
        pending := ⟨id, ty, ctx, n1, none, none, none⟩ :: s.pending,
        events := s.events ++ ["registered:" ++ id] }) := by
    simp [register_pending, hp, ha, hc]
  refine ⟨by rw [hreg], ?_, ?_, ?_, ?_, ?_, ?_⟩
  · intro ty2 ctx2 m
    rw [hreg]
    simp [register_pending, hasId_cons]
  · rw [hreg]
    simp [transition_to_active, List.find?, ha]
  · intro ws2 m
    rw [hreg]
    simp only [transition_to_active, List.find?]
    simp [ha, find?_filter_not (fun r : AgentRecord => r.agent_id == id)]
  · rw [hreg]
    simp only [transition_to_active, List.find?]
    simp [ha, transition_to_completed, List.find?, hc]
  · intro m
    rw [hreg]
    simp only [transition_to_active, List.find?]
    simp only [transition_to_completed, List.find?]
    simp [ha, hc, find?_filter_not (fun r : AgentRecord => r.agent_id == id)]
  · intro s0 hs0 ty0 ctx0 m
    unfold get_state at hs0
    by_cases h1 : hasId s0.pending id <;> by_cases h2 : hasId s0.active id <;>
      by_cases h3 : hasId s0.completed id <;>
      simp_all [register_pending]

/-- Witness for C4: the full round trip on a fresh id in the empty session
state, with the second registration attempt rejected. -/
theorem lifecycle_round_trip_witness :
    (register_pending initAgents "A" "writer" "ctx" 0).1 = true ∧
    (register_pending (register_pending initAgents "A" "writer" "ctx" 0).2
      "A" "writer" "ctx" 1).1 = false :=
  ⟨(lifecycle_round_trip initAgents "A" "writer" "ctx" "/root/worktrees/writer-s1"
      0 1 2 (by decide)).1,
   (lifecycle_round_trip initAgents "A" "writer" "ctx" "/root/worktrees/writer-s1"
      0 1 2 (by decide)).2.1 "writer" "ctx" 1⟩

end Core

namespace Core

/-- One atomic lock operation preserves the at-most-one-lock-per-key
invariant. -/
theorem applyLOp_lockCount (s : LockState) (op : LOp)
    (h : ∀ k, lockCount s k ≤ 1) : ∀ k, lockCount (applyLOp s op) k ≤ 1 := by
  cases op with
  | acq a src o now ttl =>
    rcases hf : findLock s (resource_key src) with _ | l
    · intro k
      simp only [applyLOp, acquire, hf]
      simp only [lockCount, List.countP_cons]
      cases hbk : (resource_key src == k) with
      | false => simpa [hbk] using h k
      | true =>
        have hkeq : resource_key src = k := by simpa using hbk
        subst hkeq
        have h0 : lockCount s (resource_key src) = 0 :=
          countP_eq_zero_of_find?_none hf
        simp only [lockCount] at h0
        simp [hbk, h0]
    · cases hst : isStale l now ttl with
      | false => simpa [applyLOp, acquire, hf, hst] using h
      | true =>
        intro k
        simp only [applyLOp, acquire, hf, hst, if_true]
        simp only [lockCount, List.countP_cons]
        cases hbk : (resource_key src == k) with
        | false =>
          simp only [hbk, if_false, Bool.false_eq_true, Nat.add_zero]
          exact le_trans (countP_filter_le _ _ _) (h k)
        | true =>
          have hkeq : resource_key src = k := by simpa using hbk
          subst hkeq
          simp [hbk, countP_filter_not
            (fun x : LockRec => x.resource_key == resource_key src)]
  | rel a src =>
    rcases hf : findLock s (resource_key src) with _ | l
    · simpa [applyLOp, release, hf] using h
    · cases how : (l.owner_agent_id == a) with
      | false => simpa [applyLOp, release, hf, how] using h
      | true =>
        intro k
        simp only [applyLOp, release, hf, how, if_true, lockCount]
        exact le_trans (countP_filter_le _ _ _) (h k)
  | relAll a =>
    intro k
    simp only [applyLOp, release_all_for_agent, lockCount]
    exact le_trans (countP_filter_le _ _ _) (h k)
  | clean now ttl =>
    intro k
    simp only [applyLOp, cleanup_stale_locks, lockCount]
    exact le_trans (countP_filter_le _ _ _) (h k)

/-- The at-most-one-lock-per-key invariant holds in every reachable lock
state. -/
theorem runLOps_lockCount (ops : List LOp) :
    ∀ k, lockCount (runLOps ops) k ≤ 1 := by
  suffices hstep : ∀ (l : List LOp) (s : LockState),
      (∀ k, lockCount s k ≤ 1) → ∀ k, lockCount (l.foldl applyLOp s) k ≤ 1 by
    exact hstep ops initLocks (fun k => by simp [initLocks, lockCount])
  intro l
  induction l with
  | nil => exact fun s h => h
  | cons op rest ih =>
    intro s h
    exact ih (applyLOp s op) (applyLOp_lockCount s op h)

end Core

namespace Core

/-- An acquisition attempt against a live (non-stale) existing lock fails
and changes nothing. -/
theorem acquire_busy (t : LockState) (bb src op : String) (now ttl : Nat)
    (l : LockRec) (hf : findLock t (resource_key src) = some l)
    (hs : isStale l now ttl = false) :
    acquire t bb src op now ttl = (false, t) := by
  simp [acquire, hf, hs]

/-- Claim C3: at most one lock exists per resource key in every reachable
lock state (hence at most one live one), and when two distinct agents race
an `acquire` on the same free resource, exactly one attempt succeeds: the
first wins, the loser's attempt fails and changes nothing, the loser's own
`is_locked` query reports the resource as locked until the winner
releases, after which it no longer does — while the winner's own lock
never blocks the winner itself. -/
theorem lock_mutual_exclusion (s : LockState) (a b src op1 op2 : String)
    (now ttl : Nat) (hab : a ≠ b)
    (hfree : findLock s (resource_key src) = none) :
    (∀ (ops : List LOp) (k : String), lockCount (runLOps ops) k ≤ 1) ∧
    (acquire s a src op1 now ttl).1 = true ∧
    (acquire (acquire s a src op1 now ttl).2 b src op2 now ttl).1 = false ∧
    (acquire (acquire s a src op1 now ttl).2 b src op2 now ttl).2 =
      (acquire s a src op1 now ttl).2 ∧
    is_locked (acquire s a src op1 now ttl).2 src b now ttl = true ∧
    is_locked (acquire s a src op1 now ttl).2 src a now ttl = false ∧
    (release (acquire s a src op1 now ttl).2 a src).1 = true ∧
    is_locked (release (acquire s a src op1 now ttl).2 a src).2 src b now ttl
      = false := by
  have hacq : acquire s a src op1 now ttl =
      (true, { s with
        locks := ⟨a, resource_key src, op1, now⟩ :: s.locks,
        events := s.events ++ ["acquired:" ++ resource_key src] }) := by
    simp [acquire, hfree]
  have hfind1 : findLock (acquire s a src op1 now ttl).2 (resource_key src) =
      some ⟨a, resource_key src, op1, now⟩ := by
    rw [hacq]
    simp [findLock, List.find?]
  have hlive : isStale ⟨a, resource_key src, op1, now⟩ now ttl = false := by
    simp [isStale]
  refine ⟨runLOps_lockCount, by rw [hacq], ?_, ?_, ?_, ?_, ?_, ?_⟩
  · rw [acquire_busy _ b src op2 now ttl _ hfind1 hlive]
  · rw [acquire_busy _ b src op2 now ttl _ hfind1 hlive]
  · simp [is_locked, hfind1, hlive, hab]
  · simp [is_locked, hfind1, hlive]
  · simp [release, hfind1]
  · have hrel : (release (acquire s a src op1 now ttl).2 a src).2 =
        { (acquire s a src op1 now ttl).2 with
          locks := (acquire s a src op1 now ttl).2.locks.filter
            (fun x => !(x.resource_key == resource_key src)),
          events := (acquire s a src op1 now ttl).2.events ++
            ["released:" ++ resource_key src] } := by
      simp [release, hfind1]
    rw [hrel]
    simp [is_locked, findLock,
      find?_filter_not (fun x : LockRec => x.resource_key == resource_key src)]

/-- Witness for C3: agents `A` and `B` race for the lock on `/repo/x.txt`
starting from the empty lock directory. -/
theorem lock_mutual_exclusion_witness :
    (acquire initLocks "A" "/repo/x.txt" "write" 100 1800).1 = true ∧
    (acquire (acquire initLocks "A" "/repo/x.txt" "write" 100 1800).2
      "B" "/repo/x.txt" "write" 100 1800).1 = false ∧
    is_locked (acquire initLocks "A" "/repo/x.txt" "write" 100 1800).2
      "/repo/x.txt" "B" 100 1800 = true :=
  have h := lock_mutual_exclusion initLocks "A" "B" "/repo/x.txt" "write" "write"
    100 1800 (by decide) rfl
  ⟨h.2.1, h.2.2.1, h.2.2.2.2.1⟩

/-- Claim C5: `release` is idempotent when no lock exists (returns true and
changes nothing), succeeds and removes the lock when the caller owns it,
and returns false leaving the state — in particular any live lock owned by
another agent — untouched whenever the lock belongs to a different agent;
conversely a false answer always means such a foreign-owned lock exists. -/
theorem release_semantics (s : LockState) (a src : String) :
    (findLock s (resource_key src) = none → release s a src = (true, s)) ∧
    (∀ l, findLock s (resource_key src) = some l → l.owner_agent_id = a →
      (release s a src).1 = true ∧
      findLock (release s a src).2 (resource_key src) = none) ∧
    (∀ l, findLock s (resource_key src) = some l → l.owner_agent_id ≠ a →
      release s a src = (false, s)) ∧
    ((release s a src).1 = false →
      ∃ l, findLock s (resource_key src) = some l ∧ l.owner_agent_id ≠ a) := by
  refine ⟨?_, ?_, ?_, ?_⟩
  · intro hf
    simp [release, hf]
  · intro l hf hown
    constructor
    · simp [release, hf, hown]
    · have hrel : (release s a src).2 = { s with
          locks := s.locks.filter (fun x => !(x.resource_key == resource_key src)),
          events := s.events ++ ["released:" ++ resource_key src] } := by
        simp [release, hf, hown]
      rw [hrel]
      simp [findLock,
        find?_filter_not (fun x : LockRec => x.resource_key == resource_key src)]
  · intro l hf hown
    have hbne : (l.owner_agent_id == a) = false := by simp [hown]
    simp [release, hf, hbne]
  · intro hfalse
    rcases hf : findLock s (resource_key src) with _ | l
    · simp [release, hf] at hfalse
    · cases how : (l.owner_agent_id == a) with
      | true => simp [release, hf, how] at hfalse
      | false => exact ⟨l, rfl, by simpa using how⟩

/-- Witness for C5: releasing an absent lock is an idempotent success;
releasing another agent's live lock fails and leaves it in place. -/
theorem release_semantics_witness :
    release initLocks "A" "/repo/x.txt" = (true, initLocks) ∧
    release ⟨[⟨"B", "/repo/x.txt", "write", 0⟩], []⟩ "A" "/repo/x.txt" =
      (false, ⟨[⟨"B", "/repo/x.txt", "write", 0⟩], []⟩) :=
  ⟨(release_semantics initLocks "A" "/repo/x.txt").1 rfl,
   (release_semantics ⟨[⟨"B", "/repo/x.txt", "write", 0⟩], []⟩ "A"
      "/repo/x.txt").2.2.1 ⟨"B", "/repo/x.txt", "write", 0⟩ rfl (by decide)⟩

/-- Claim C6: staleness reclamation — an `acquire` attempt by a new agent
succeeds against a lock whose `acquired_at` predates now − TTL (the stale
lock is force-reclaimed during acquisition, leaving the new agent's fresh
lock in place), and a pending record whose own recorded timestamp is older
than `max_age` (default 24 hours) is removed by `cleanup_stale` and no
longer appears in `list_pending`. -/
theorem stale_reclamation (s : LockState) (b src op : String) (now ttl : Nat)
    (l : LockRec) (hl : findLock s (resource_key src) = some l)
    (hstale : isStale l now ttl = true)
    (st : AgentsState) (r : AgentRecord) (max_age nowc : Nat)
    (_hr : r ∈ st.pending) (hold : max_age < nowc - r.registered_at) :
    (acquire s b src op now ttl).1 = true ∧
    findLock (acquire s b src op now ttl).2 (resource_key src) =
      some ⟨b, resource_key src, op, now⟩ ∧
    MAX_AGE_DEFAULT = 86400 ∧
    r ∉ list_pending (cleanup_stale st max_age nowc).2 := by
  refine ⟨?_, ?_, rfl, ?_⟩
  · simp [acquire, hl, hstale]
  · have hacq : (acquire s b src op now ttl).2 = { s with
        locks := ⟨b, resource_key src, op, now⟩ ::
          s.locks.filter (fun x => !(x.resource_key == resource_key src)),
        events := s.events ++ ["force_released:" ++ resource_key src,
          "acquired:" ++ resource_key src] } := by
      simp [acquire, hl, hstale]
    rw [hacq]
    simp [findLock, List.find?]
  · intro hmem
    simp only [cleanup_stale, list_pending] at hmem
    have hkeep := (List.mem_filter.mp hmem).2
    simp [pendingStale, hold] at hkeep

/-- Witness for C6: a lock acquired at time 0 with a 1800-second TTL is
reclaimed by agent `B` at time 2000, and a pending record registered at
time 0 is removed by a cleanup at time 90000 with the default 24-hour
`max_age`. -/
theorem stale_reclamation_witness :
    (acquire ⟨[⟨"A", "/repo/x.txt", "write", 0⟩], []⟩ "B" "/repo/x.txt"
      "write" 2000 1800).1 = true ∧
    ⟨"A", "w", "c", 0, none, none, none⟩ ∉ list_pending
      (cleanup_stale ⟨[⟨"A", "w", "c", 0, none, none, none⟩], [], [], []⟩
        MAX_AGE_DEFAULT 90000).2 :=
  have h := stale_reclamation ⟨[⟨"A", "/repo/x.txt", "write", 0⟩], []⟩ "B"
    "/repo/x.txt" "write" 2000 1800 ⟨"A", "/repo/x.txt", "write", 0⟩ rfl
    (by decide) ⟨[⟨"A", "w", "c", 0, none, none, none⟩], [], [], []⟩
    ⟨"A", "w", "c", 0, none, none, none⟩ MAX_AGE_DEFAULT 90000
    (by simp) (by decide)
  ⟨h.1, h.2.2.2⟩

end Core
